import Mathlib

/-!
Shallow embedding of the generic admin CRUD engine of this repository
(`src/admin/views.py`, the current iteration of the three `views.py`
variants, with `src/views.py` as the legacy iteration where noted).

Entities (ORM rows) are modelled as ordered association lists from column
names to values; models carry their column list in schema declaration
order together with the primary-key column names; resource descriptor
classes carry the optional class attributes the engine probes with
`hasattr`.  Python `None` is `Value.null`; a Python exception that would
escape a request handler (for example `AttributeError`) is modelled as
`Except.error`.
-/

set_option autoImplicit false

namespace FlaskAdmin

/-- A database value as seen by the engine: Python `None`, a string, an
integer or a boolean.  Raw form/CSV inputs and stored column values both
live in this type. -/
inductive Value where
  | null
  | text (s : String)
  | intv (n : Int)
  | boolv (b : Bool)
deriving DecidableEq, Repr

/-- Python truthiness of a `Value` (`if initial_value` in the source):
`None`, the empty string, `0` and `False` are falsy. -/
def truthy : Value → Bool
  | .null => false
  | .text s => !(s = "")
  | .intv n => !(n = 0)
  | .boolv b => b

/-- Prefix test on character lists. -/
def charsPrefix : List Char → List Char → Bool
  | [], _ => true
  | _ :: _, [] => false
  | a :: as, b :: bs => a = b && charsPrefix as bs

/-- Infix test on character lists. -/
def charsInfix (needle : List Char) : List Char → Bool
  | [] => needle.isEmpty
  | c :: rest => charsPrefix needle (c :: rest) || charsInfix needle rest

/-- Substring test on strings (Python `needle in haystack`). -/
def strContains (haystack needle : String) : Bool :=
  charsInfix needle.data haystack.data

/-- Python `str.lower()` (ASCII case folding, which covers every string
the engine compares). -/
def strLower (s : String) : String :=
  ⟨s.data.map Char.toLower⟩

/-- One column of a model table, as the source materialises it:
`{"name": str(column.name), "type": str(column.type)}`. -/
structure Column where
  name : String
  type : String
deriving DecidableEq, Repr

/-- A storage model (`resource_class.model`): its class name, its columns
in schema declaration order (`model.__table__.columns`) and the names of
its primary-key columns (`model.__table__.primary_key.columns.keys()`). -/
structure Model where
  name : String
  columns : List Column
  pkNames : List String
deriving DecidableEq, Repr

/-- A sort criterion of a resource class (`{"sort_by": .., "sort_order": ..}`). -/
structure SortCriterion where
  sort_by : String
  sort_order : String
deriving DecidableEq, Repr

/-- A resource descriptor class from `admin_view.py`.  Optional class
attributes that the engine probes with `hasattr` are `Option`s / `Bool`s. -/
structure ResourceClass where
  name : String
  model : Model
  protected_attributes : Option (List String)
  list_display : List String
  sort : Option (List SortCriterion)
  searchable_date_field : Option String
  revisions : Option Bool
  revision_model : Option Model
  revision_pk : String
  has_after_create : Bool
  has_after_update : Bool
  has_after_delete : Bool
deriving DecidableEq, Repr

/-- A persisted entity: an ordered mapping from column names to values,
mirroring the instance `__dict__` of an ORM row. -/
abbrev Entity := List (String × Value)

/-- Python `getattr(entity, k)` for a column attribute (first binding wins,
as in a dict); absent keys play no role in the properties proved below. -/
def getAttr (e : Entity) (k : String) : Value :=
  match e.find? (fun p => p.1 = k) with
  | some p => p.2
  | none => .null

/-- Python `setattr(entity, k, v)` / dict assignment: overwrite the first
binding of `k` in place (keys are unique in a dict), or append a new
binding at the end. -/
def setAttr : Entity → String → Value → Entity
  | [], k, v => [(k, v)]
  | p :: rest, k, v => if p.1 = k then (k, v) :: rest else p :: setAttr rest k v

/-- The ignore set built by `get_editable_attributes`
(src/admin/views.py:366-369): primary-key columns, the two timestamp
columns, and the protected attributes when the class declares them. -/
def editableIgnoreColumns (rc : ResourceClass) : List String :=
  let ignore := ["created_at", "updated_at"] ++ rc.model.pkNames
  match rc.protected_attributes with
  | some pa => pa ++ ignore
  | none => ignore

/-- Embedding of `get_editable_attributes` (src/admin/views.py:362-382):
every table column, in declaration order, whose name is not in the ignore
set. -/
def get_editable_attributes (rc : ResourceClass) : List Column :=
  rc.model.columns.filter (fun c => !(editableIgnoreColumns rc).contains c.name)

/-- Embedding of `get_readable_attributes` (src/admin/views.py:342-359):
every table column except primary-key columns. -/
def get_readable_attributes (rc : ResourceClass) : List Column :=
  rc.model.columns.filter (fun c => !rc.model.pkNames.contains c.name)

/-- Embedding of `validate_resource_attribute` (src/admin/views.py:385-407).
The input is the raw value handed over by the request (a string, `None`, or
an already-boolean value); the result is the coerced value, or an error when
the source would raise (calling `.lower()` on a non-string non-boolean in
the BOOLEAN branch). -/
def validate_resource_attribute (attr : Column) (initial_value : Value) :
    Except String Value :=
  if strContains attr.type "VARCHAR" ∨ attr.type = "TEXT" ∨ attr.type = "JSON" then
    .ok (if truthy initial_value then initial_value else .null)
  else if strContains attr.type "INT" ∨ attr.type = "FLOAT" then
    .ok (if truthy initial_value then initial_value else .null)
  else if attr.type = "DATE" ∨ attr.type = "DATETIME" then
    .ok (if truthy initial_value then initial_value else .null)
  else if attr.type = "BOOLEAN" then
    match initial_value with
    | .boolv b => .ok (.boolv b)
    | .text s =>
        .ok (if strLower s = "true" then .boolv true
             else if strLower s = "false" then .boolv false
             else .null)
    | _ => .error "AttributeError: object has no attribute lower"
  else
    .ok .null

/-- A submitted form: the (name, raw string) pairs of exactly the fields
present in the request (`name in request.form` tests membership here). -/
abbrev Form := List (String × String)

/-- Python `request.form.get(k)`: the first value bound to `k`, or `None`. -/
def formGet (form : Form) (k : String) : Option String :=
  (form.find? (fun p => p.1 = k)).map (fun p => p.2)

/-- Python `k in request.form`. -/
def formHas (form : Form) (k : String) : Bool :=
  form.any (fun p => p.1 = k)

/-- Embedding of `get_hashed_password` (src/admin/views.py:1153-1173): blank
or missing passwords pass through, anything else is bcrypt-hashed; the hash
itself is an opaque parameter. -/
def get_hashed_password (hash : String → String) : Option String → Option String
  | none => none
  | some s => if s = "" then some s else some (hash s)

/-- Conversion of a `request.form.get` result to the value handed to
`validate_resource_attribute`. -/
def optToValue : Option String → Value
  | none => .null
  | some s => .text s

/-- One pass of the `attributes_to_save` loop of `resource_create`
(src/admin/views.py:740-750), carrying the dict built so far: for every
editable attribute, take the raw form value (`None` when absent), hash it
when it is the configured secret field, coerce it, and record it. -/
def createAttributesLoop (secret : String) (hash : String → String)
    (form : Form) : List Column → Entity → Except String Entity
  | [], acc => .ok acc
  | attr :: rest, acc =>
    let v0 := formGet form attr.name
    let v1 := if attr.name = secret then get_hashed_password hash v0 else v0
    match validate_resource_attribute attr (optToValue v1) with
    | .error e => .error e
    | .ok v => createAttributesLoop secret hash form rest (setAttr acc attr.name v)

/-- The full `attributes_to_save` dict of `resource_create`, starting from
the empty dict. -/
def createAttributesToSave (secret : String) (hash : String → String)
    (editable : List Column) (form : Form) : Except String Entity :=
  createAttributesLoop secret hash form editable []

/-- Embedding of the partial-update loop of `resource_edit`
(src/admin/views.py:866-877): an editable attribute is touched only when
its name is present in the submitted form; a blank submitted secret is
skipped (`continue`); everything else is coerced and assigned. -/
def applyEditForm (secret : String) (hash : String → String) (form : Form) :
    List Column → Entity → Except String Entity
  | [], resource => .ok resource
  | attr :: rest, resource =>
    if formHas form attr.name then
      match formGet form attr.name with
      | none => applyEditForm secret hash form rest resource
      | some s =>
        if attr.name = secret ∧ s = "" then
          applyEditForm secret hash form rest resource
        else
          match validate_resource_attribute attr
              (.text (if attr.name = secret then hash s else s)) with
          | .error e => .error e
          | .ok v => applyEditForm secret hash form rest (setAttr resource attr.name v)
    else
      applyEditForm secret hash form rest resource

/-- The attribute names skipped by the modification check of
`handle_resource_revision` (src/admin/views.py:1259-1264). -/
def revisionSkipColumns : List String :=
  ["id", "_sa_instance_state", "created_at", "updated_at"]

/-- The modification check of `handle_resource_revision`
(src/admin/views.py:1257-1269): some attribute of the old snapshot outside
the skip list differs between old and new. -/
def revisionIsModified (old_resource new_resource : Entity) : Bool :=
  old_resource.any (fun p =>
    !decide (p.1 ∈ revisionSkipColumns) &&
      !decide (getAttr old_resource p.1 = getAttr new_resource p.1))

/-- The clone dict built by `handle_resource_revision`
(src/admin/views.py:1274-1287): every old attribute except the instance
state and the timestamps, with `id` stored under the revision primary key. -/
def revisionClonedAttributes (revision_pk : String) (old_resource : Entity) : Entity :=
  old_resource.foldl (fun acc p =>
    if p.1 ∈ ["_sa_instance_state", "created_at", "updated_at"] then acc
    else if p.1 = "id" then setAttr acc revision_pk p.2
    else setAttr acc p.1 p.2) []

/-- The revision record written by `handle_resource_revision`
(src/admin/views.py:1274-1292): the clone of the pre-update snapshot, with
`edited_by` set to the acting user when one is logged in and the revision
model has that column. -/
def revisionRecord (revision_model : Model) (revision_pk : String)
    (current_user : Option Int) (old_resource : Entity) : Entity :=
  let cloned := revisionClonedAttributes revision_pk old_resource
  match current_user with
  | some uid =>
    if revision_model.columns.any (fun c => c.name = "edited_by") then
      setAttr cloned "edited_by" (.intv uid)
    else cloned
  | none => cloned

/-- Embedding of `handle_resource_revision` (src/admin/views.py:1247-1294).
The result is the list of revision records written (empty or a singleton);
`current_user` is the acting user id when a user is logged in. -/
def handle_resource_revision (rc : ResourceClass) (current_user : Option Int)
    (old_resource new_resource : Entity) : List Entity :=
  match rc.revisions, rc.revision_model with
  | some revs, some revision_model =>
    if revs then
      if revisionIsModified old_resource new_resource then
        [revisionRecord revision_model rc.revision_pk current_user old_resource]
      else []
    else []
  | _, _ => []

/-- The first primary-key column name
(`model.__table__.primary_key.columns.keys()[0]`). -/
def primaryKeyName (m : Model) : String :=
  m.pkNames.headD "id"

/-- Embedding of `model.query.get(resource_id)`: the first stored row whose
primary key equals the given id. -/
def queryGet (m : Model) (store : List Entity) (rid : Value) : Option Entity :=
  store.find? (fun e => getAttr e (primaryKeyName m) = rid)

/-- The observable outcome of `resource_delete`. -/
structure DeleteResult where
  store : List Entity
  hook_called : Bool
  redirected : Bool
deriving DecidableEq, Repr

/-- Embedding of `resource_delete` (src/admin/views.py:944-977): fetch by
primary key; delete and commit only when the row exists; invoke the
`after_delete_callback` hook only when the row existed and the class
declares the hook; always redirect. -/
def resource_delete (rc : ResourceClass) (store : List Entity) (rid : Value) :
    DeleteResult :=
  match queryGet rc.model store rid with
  | none => ⟨store, false, true⟩
  | some _ =>
    ⟨store.eraseP (fun e => getAttr e (primaryKeyName rc.model) = rid),
     rc.has_after_delete, true⟩

/-- SQL three-valued logic: `none` is SQL NULL (unknown). -/
abbrev SQLBool := Option Bool

/-- SQL `OR` (Kleene disjunction). -/
def sqlOr : SQLBool → SQLBool → SQLBool
  | some true, _ => some true
  | _, some true => some true
  | some false, b => b
  | none, _ => none

/-- SQL `AND` (Kleene conjunction). -/
def sqlAnd : SQLBool → SQLBool → SQLBool
  | some false, _ => some false
  | _, some false => some false
  | some true, b => b
  | none, _ => none

/-- A `WHERE` clause keeps a row exactly when its condition is true
(unknown filters the row out). -/
def sqlToWhere (b : SQLBool) : Bool :=
  b = some true

/-- Textual form of a value under `cast(col, Text)`; NULL stays NULL. -/
def castText : Value → Option String
  | .null => none
  | .text s => some s
  | .intv n => some (toString n)
  | .boolv b => some (if b then "true" else "false")

/-- SQL `cast(col, Text).ilike` with the search term wrapped in percent
signs: case-insensitive substring match; NULL yields unknown. -/
def sqlILike (v : Value) (pat : String) : SQLBool :=
  match castText v with
  | none => none
  | some s => some (strContains (strLower s) (strLower pat))

/-- SQL `col.in_(vals)`: NULL yields unknown. -/
def sqlIn (v : Value) (vals : List String) : SQLBool :=
  match castText v with
  | none => none
  | some s => some (vals.contains s)

/-- SQL `col.isnot(None)`: always a known boolean. -/
def sqlIsNotNull (v : Value) : SQLBool :=
  some (!(v = Value.null))

/-- The fixed role set of the `UserModel` extra filter
(src/admin/views.py:592-595). -/
def userRoleValues : List String :=
  ["cs_user", "admin", "user", "superadmin"]

/-- The extra `UserModel` condition of `filter_resources`
(src/admin/views.py:592-598): `or_(roles.in_(fixed set), roles.isnot(None))`
applied to the roles value of a row. -/
def userRoleCondition (v : Value) : SQLBool :=
  sqlOr (sqlIn v userRoleValues) (sqlIsNotNull v)

/-- The date part of a value under SQL `func.date`; NULL (or a non-date
typed value) yields NULL.  Dates are ISO `YYYY-MM-DD` strings, whose
lexicographic order is the chronological order. -/
def castDate : Value → Option String
  | .text s => some (s.take 10)
  | _ => none

/-- SQL `func.date(col) >= func.date(given date)`. -/
def sqlDateGe (v : Value) (d : String) : SQLBool :=
  match castDate v with
  | none => none
  | some s => some (decide (d ≤ s))

/-- SQL `func.date(col) <= func.date(given date)`. -/
def sqlDateLe (v : Value) (d : String) : SQLBool :=
  match castDate v with
  | none => none
  | some s => some (decide (s ≤ d))

/-- The search parameters handed to `filter_resources`. -/
structure SearchParams where
  search_query : String
  from_date : Option String
  to_date : Option String

/-- Row context for dotted display fields: `rel a row` is the related
entity reached through relation attribute `a` (a many-to-one join target),
or `none` when the row has no related entity. -/
structure QueryCtx where
  rel : String → Entity → Option Entity

/-- The `search_query_conditions` list of `filter_resources`
(src/admin/views.py:550-571): empty when the search term is falsy (the
empty string); otherwise one `ilike` condition per displayed field, dotted
fields resolving through the related entity, plain fields only when the
column exists on the model. -/
def searchQueryConditions (ctx : QueryCtx) (model : Model)
    (list_display : List String) (search_query : String) :
    List (Entity → SQLBool) :=
  if search_query = "" then []
  else
    list_display.filterMap (fun columnName =>
      if strContains columnName "." then
        some (fun row =>
          match ctx.rel ((columnName.splitOn ".").headD "") row with
          | some related => sqlILike (getAttr related ((columnName.splitOn ".").getD 1 "")) search_query
          | none => none)
      else if model.columns.any (fun c => c.name = columnName) then
        some (fun row => sqlILike (getAttr row columnName) search_query)
      else none)

/-- The `date_conditions` list of `filter_resources`
(src/admin/views.py:573-586), against the configurable date field
(default `created_at`). -/
def dateConditions (resource_class : ResourceClass)
    (from_date to_date : Option String) : List (Entity → SQLBool) :=
  let date_field := resource_class.searchable_date_field.getD "created_at"
  (match from_date with
   | some f => [fun row => sqlDateGe (getAttr row date_field) f]
   | none => []) ++
  (match to_date with
   | some t => [fun row => sqlDateLe (getAttr row date_field) t]
   | none => [])

/-- SQLAlchemy `or_(*conds)` inside a conjunction: an empty clause list is
elided (matches everything); otherwise the Kleene disjunction. -/
def orGroup (conds : List (Entity → SQLBool)) (row : Entity) : SQLBool :=
  match conds with
  | [] => some true
  | _ => conds.foldl (fun acc c => sqlOr acc (c row)) (some false)

/-- SQLAlchemy `and_(*conds)`: the Kleene conjunction (empty list elided). -/
def andGroup (conds : List (Entity → SQLBool)) (row : Entity) : SQLBool :=
  conds.foldl (fun acc c => sqlAnd acc (c row)) (some true)

/-- A total ordering key on values used to model SQL `ORDER BY`. -/
def valueRank : Value → Nat
  | .null => 0
  | .boolv _ => 1
  | .intv _ => 2
  | .text _ => 3

/-- Comparison of two column values for `ORDER BY`. -/
def valueLe (a b : Value) : Bool :=
  match a, b with
  | .boolv x, .boolv y => !x || y
  | .intv x, .intv y => decide (x ≤ y)
  | .text x, .text y => decide (x ≤ y)
  | _, _ => decide (valueRank a ≤ valueRank b)

/-- Lexicographic row comparison along a list of `(column, descending)`
criteria, as `order_by(*sort_conditions)` sorts. -/
def sortKeyLe : List (String × Bool) → Entity → Entity → Bool
  | [], _, _ => true
  | (col, desc) :: rest, a, b =>
    let va := getAttr a col
    let vb := getAttr b col
    if va = vb then sortKeyLe rest a b
    else if desc then valueLe vb va
    else valueLe va vb

/-- Insertion step of the stable sort modelling SQL `ORDER BY`. -/
def insertLe (le : Entity → Entity → Bool) (x : Entity) :
    List Entity → List Entity
  | [] => [x]
  | y :: ys => if le x y then x :: y :: ys else y :: insertLe le x ys

/-- Stable insertion sort modelling SQL `ORDER BY` (equal keys keep their
relative order). -/
def insertionSort (le : Entity → Entity → Bool) : List Entity → List Entity
  | [] => []
  | x :: xs => insertLe le x (insertionSort le xs)

/-- The effective sort criteria of `filter_resources`
(src/admin/views.py:600-612): the explicit criteria when given and
non-empty, otherwise the first primary-key column ascending. -/
def effectiveSortCriteria (model : Model) (sort : Option (List SortCriterion)) :
    List (String × Bool) :=
  match sort with
  | some crits =>
    if crits.length ≠ 0 then
      crits.map (fun c => (c.sort_by, strLower c.sort_order = "desc"))
    else [(primaryKeyName model, false)]
  | none => [(primaryKeyName model, false)]

/-- The page slice of `query.paginate(page, per_page, error_out=False)`;
`per_page = none` disables slicing (export). -/
structure Pagination where
  items : List Entity
  total : Nat
  page : Nat
deriving DecidableEq, Repr

/-- Embedding of `paginate`. -/
def paginate (rows : List Entity) (page : Nat) (per_page : Option Nat) :
    Pagination :=
  match per_page with
  | none => ⟨rows, rows.length, page⟩
  | some n => ⟨(rows.drop ((page - 1) * n)).take n, rows.length, page⟩

/-- Embedding of `filter_resources` (src/admin/views.py:539-629) executed
against a list of stored rows: apply the search/date `WHERE` clause, the
extra `UserModel` role clause, the inner joins induced by dotted display
fields, the sort, and the pagination. -/
def filter_resources (ctx : QueryCtx) (resource_class : ResourceClass)
    (model : Model) (list_display : List String)
    (search_params : SearchParams) (page : Nat) (per_page : Option Nat)
    (sort : Option (List SortCriterion)) (rows : List Entity) : Pagination :=
  let search_query_conditions :=
    searchQueryConditions ctx model list_display search_params.search_query
  let date_conditions :=
    dateConditions resource_class search_params.from_date search_params.to_date
  let afterWhere := rows.filter (fun row =>
    sqlToWhere (sqlAnd (orGroup search_query_conditions row)
                       (andGroup date_conditions row)))
  let afterRole :=
    if model.name = "UserModel" then
      afterWhere.filter (fun row => sqlToWhere (userRoleCondition (getAttr row "roles")))
    else afterWhere
  let sorted := insertionSort (sortKeyLe (effectiveSortCriteria model sort)) afterRole
  let dotted := list_display.filter (fun a => strContains a ".")
  let joined := sorted.filter (fun row =>
    dotted.all (fun a => (ctx.rel ((a.splitOn ".").headD "") row).isSome))
  paginate joined page per_page

/-- Modelled from the spec (section 4.4 and section 8 boundary): the same
query with no search filter at all — the date clause, the `UserModel` role
clause, the joins, the sort and the pagination, but no search predicate. -/
def filter_resources_no_search (ctx : QueryCtx) (resource_class : ResourceClass)
    (model : Model) (list_display : List String)
    (from_date to_date : Option String) (page : Nat) (per_page : Option Nat)
    (sort : Option (List SortCriterion)) (rows : List Entity) : Pagination :=
  let date_conditions := dateConditions resource_class from_date to_date
  let afterWhere := rows.filter (fun row => sqlToWhere (andGroup date_conditions row))
  let afterRole :=
    if model.name = "UserModel" then
      afterWhere.filter (fun row => sqlToWhere (userRoleCondition (getAttr row "roles")))
    else afterWhere
  let sorted := insertionSort (sortKeyLe (effectiveSortCriteria model sort)) afterRole
  let dotted := list_display.filter (fun a => strContains a ".")
  let joined := sorted.filter (fun row =>
    dotted.all (fun a => (ctx.rel ((a.splitOn ".").headD "") row).isSome))
  paginate joined page per_page

/-- Embedding of `get_resource_class` (src/admin/views.py:233-239): scan
the registered descriptor classes and return the first one whose `name`
matches the requested resource type, or `None`. -/
def get_resource_class (registry : List ResourceClass) (resource_type : String) :
    Option ResourceClass :=
  registry.find? (fun rc => rc.name = resource_type)

/-- The Python exception raised when a route dereferences the `None`
returned by `get_resource_class` (`resource_class.model`). -/
def attributeErrorNone : String :=
  "AttributeError: NoneType object has no attribute model"

/-- Route-level `resource_list` (src/admin/views.py:634-698) for resource
classes without a bespoke controller: resolve the descriptor (crashing on
an unknown type) and run the filtered, paginated query with `per_page=20`. -/
def resource_list_route (registry : List ResourceClass) (ctx : QueryCtx)
    (resource_type : String) (search_params : SearchParams) (page : Nat)
    (rows : List Entity) : Except String Pagination :=
  match get_resource_class registry resource_type with
  | none => .error attributeErrorNone
  | some rc =>
    .ok (filter_resources ctx rc rc.model rc.list_display search_params
          page (some 20) rc.sort rows)

/-- Route-level `resource_read` (src/admin/views.py:768-801): resolve the
descriptor (crashing on an unknown type) and fetch the row, `none` meaning
a redirect to the list with no data read. -/
def resource_read_route (registry : List ResourceClass) (resource_type : String)
    (rid : Value) (store : List Entity) : Except String (Option Entity) :=
  match get_resource_class registry resource_type with
  | none => .error attributeErrorNone
  | some rc => .ok (queryGet rc.model store rid)

/-- Route-level `resource_create` (src/admin/views.py:706-760): resolve the
descriptor (crashing on an unknown type), build the new row from the
editable attributes, commit it, and report whether the after-create hook
fires. -/
def resource_create_route (registry : List ResourceClass) (secret : String)
    (hash : String → String) (resource_type : String) (form : Form)
    (store : List Entity) : Except String (List Entity × Bool) :=
  match get_resource_class registry resource_type with
  | none => .error attributeErrorNone
  | some rc => do
    let ent ← createAttributesToSave secret hash (get_editable_attributes rc) form
    pure (store ++ [ent], rc.has_after_create)

/-- Route-level `resource_edit` (src/admin/views.py:809-936) for resource
types other than the bespoke `mandi-receipt` business branch: resolve the
descriptor (crashing on an unknown type), fetch the row (absent rows
redirect with no change), apply the partial-update loop, commit, and run
the revision machinery.  The result carries the new store and the revision
records written. -/
def resource_edit_route (registry : List ResourceClass) (secret : String)
    (hash : String → String) (current_user : Option Int)
    (resource_type : String) (rid : Value) (form : Form)
    (store : List Entity) : Except String (List Entity × List Entity) :=
  match get_resource_class registry resource_type with
  | none => .error attributeErrorNone
  | some rc =>
    match queryGet rc.model store rid with
    | none => .ok (store, [])
    | some resource => do
      let old_resource := resource
      let updated ← applyEditForm secret hash form (get_editable_attributes rc) resource
      let committed := store.map (fun e =>
        if getAttr e (primaryKeyName rc.model) = rid then updated else e)
      pure (committed, handle_resource_revision rc current_user old_resource updated)

/-- Route-level `resource_delete` (src/admin/views.py:944-977): resolve the
descriptor (crashing on an unknown type) and run the delete. -/
def resource_delete_route (registry : List ResourceClass) (resource_type : String)
    (rid : Value) (store : List Entity) : Except String DeleteResult :=
  match get_resource_class registry resource_type with
  | none => .error attributeErrorNone
  | some rc => .ok (resource_delete rc store rid)

/-- The upload column set (`col_names`) of `resource_upload`
(src/admin/views.py:1109-1114): the names of the editable attributes,
passed to `pd.read_csv(usecols=col_names)`. -/
def resource_upload_usecols (rc : ResourceClass) : List String :=
  (get_editable_attributes rc).map (fun a => a.name)

/-- The rows written by `resource_download_sample`
(src/admin/views.py:1069-1074): the editable attribute names as header,
then one blank row. -/
def resource_download_sample_rows (rc : ResourceClass) : List (List String) :=
  [(get_editable_attributes rc).map (fun a => a.name), []]

/-- The per-cell coercion of the `resource_upload` row loop
(src/admin/views.py:1118-1138).  The cell is the pandas-parsed value, with
`Value.null` standing for a blank cell (NaN, already turned into `None` by
the `pd.isna` guard).  The BOOLEAN branch calls `.lower()` on the cell,
which raises on `None` — modelled as an error. -/
def uploadCoerceCell (attr : Column) (cell : Value) : Except String Value :=
  if ["VARCHAR", "TEXT", "JSON"].contains attr.type then
    .ok (if truthy cell then cell else .null)
  else if attr.type = "INTEGER" then
    .ok (if truthy cell then cell else .null)
  else if attr.type = "DATE" ∨ attr.type = "DATETIME" then
    .ok (if truthy cell then cell else .null)
  else if attr.type = "BOOLEAN" then
    match cell with
    | .boolv b => .ok (.boolv b)
    | .text s => .ok (.boolv (strLower s = "true"))
    | _ => .error "AttributeError: object has no attribute lower"
  else .ok cell

/-- One CSV row turned into the `attributes_to_save` dict of
`resource_upload` (src/admin/views.py:1116-1139). -/
def uploadRowEntity (uploadable : List Column) (row : Entity) : Except String Entity :=
  uploadable.foldlM (fun acc attr => do
    let v ← uploadCoerceCell attr (getAttr row attr.name)
    pure (setAttr acc attr.name v)) []

/-- The row loop of `resource_upload` (src/admin/views.py:1115-1142): each
row builds one new entity and is committed individually; a raising row
stops the loop but leaves the rows already committed in the store.  The
second component reports the escaping exception, if any. -/
def resource_upload_rows (uploadable : List Column) (rows : List Entity)
    (store : List Entity) : List Entity × Option String :=
  match rows with
  | [] => (store, none)
  | r :: rest =>
    match uploadRowEntity uploadable r with
    | .error e => (store, some e)
    | .ok ent => resource_upload_rows uploadable rest (store ++ [ent])

/-! ## Helper lemmas and concrete fixtures -/

/-- Kleene conjunction with a true left operand is the right operand. -/
theorem sqlAnd_true_left (b : SQLBool) : sqlAnd (some true) b = b := by
  cases b with
  | none => rfl
  | some x => cases x <;> rfl

/-- Kleene disjunction with a true right operand is true. -/
theorem sqlOr_true_right (a : SQLBool) : sqlOr a (some true) = some true := by
  cases a with
  | none => rfl
  | some x => cases x <;> rfl

/-- Reading back the attribute just set. -/
theorem getAttr_setAttr_self (e : Entity) (k : String) (v : Value) :
    getAttr (setAttr e k v) k = v := by
  induction e with
  | nil => simp [setAttr, getAttr, List.find?]
  | cons p rest ih =>
    by_cases hp : p.1 = k
    · simp [setAttr, getAttr, List.find?, hp]
    · simpa [setAttr, getAttr, List.find?, hp] using ih

/-- Setting one attribute leaves every other attribute unchanged. -/
theorem getAttr_setAttr_ne (e : Entity) (k k' : String) (v : Value)
    (h : k' ≠ k) : getAttr (setAttr e k v) k' = getAttr e k' := by
  have hkk : ¬ (k = k') := fun hh => h hh.symm
  induction e with
  | nil => simp [setAttr, getAttr, List.find?, hkk]
  | cons p rest ih =>
    by_cases hp : p.1 = k
    · simp [setAttr, getAttr, List.find?, hp, hkk]
    · by_cases hq : p.1 = k'
      · simp [setAttr, getAttr, List.find?, hp, hq, h, hkk]
      · simpa [setAttr, getAttr, List.find?, hp, hq] using ih

/-- The key just set is among the keys after `setAttr`. -/
theorem mem_keys_setAttr_self (e : Entity) (k : String) (v : Value) :
    k ∈ (setAttr e k v).map Prod.fst := by
  induction e with
  | nil => simp [setAttr]
  | cons p rest ih =>
    by_cases hp : p.1 = k
    · simp [setAttr, hp]
    · simp only [setAttr, if_neg hp, List.map_cons, List.mem_cons]
      exact Or.inr ih

/-- Keys survive `setAttr`. -/
theorem mem_keys_setAttr_of_mem (e : Entity) (k k' : String) (v : Value)
    (h : k' ∈ e.map Prod.fst) : k' ∈ (setAttr e k v).map Prod.fst := by
  induction e with
  | nil => simp at h
  | cons p rest ih =>
    by_cases hp : p.1 = k
    · simp only [setAttr, if_pos hp, List.map_cons, List.mem_cons] at h ⊢
      rcases h with h | h
      · exact Or.inl (h.trans hp)
      · exact Or.inr h
    · simp only [setAttr, if_neg hp, List.map_cons, List.mem_cons] at h ⊢
      rcases h with h | h
      · exact Or.inl h
      · exact Or.inr (ih h)

/-- Every editable attribute gets a key in the dict built by the create
loop, and keys already present survive. -/
theorem createLoop_keys (secret : String) (hash : String → String)
    (form : Form) :
    ∀ (editable : List Column) (acc ent : Entity),
      createAttributesLoop secret hash form editable acc = .ok ent →
      (∀ k, k ∈ acc.map Prod.fst → k ∈ ent.map Prod.fst) ∧
      (∀ c ∈ editable, c.name ∈ ent.map Prod.fst) := by
  intro editable
  induction editable with
  | nil =>
    intro acc ent hok
    simp only [createAttributesLoop, Except.ok.injEq] at hok
    subst hok
    exact ⟨fun k hk => hk, fun c hc => absurd hc (List.not_mem_nil c)⟩
  | cons attr rest ih =>
    intro acc ent hok
    simp only [createAttributesLoop] at hok
    cases hv : validate_resource_attribute attr
        (optToValue (if attr.name = secret then
          get_hashed_password hash (formGet form attr.name)
        else formGet form attr.name)) with
    | error e => rw [hv] at hok; simp at hok
    | ok v =>
      rw [hv] at hok
      obtain ⟨h1, h2⟩ := ih (setAttr acc attr.name v) ent hok
      refine ⟨fun k hk => h1 k (mem_keys_setAttr_of_mem _ _ _ _ hk), ?_⟩
      intro c hc
      rcases List.mem_cons.mp hc with rfl | hc'
      · exact h1 c.name (mem_keys_setAttr_self _ _ _)
      · exact h2 c hc'

/-- Frame property of the partial-update loop: a field that is absent from
the submitted form, or not editable at all, keeps its stored value. -/
theorem applyEditForm_frame (secret : String) (hash : String → String)
    (form : Form) :
    ∀ (editable : List Column) (r0 r1 : Entity) (f : String),
      applyEditForm secret hash form editable r0 = .ok r1 →
      (formHas form f = false ∨ f ∉ editable.map (fun x => x.name)) →
      getAttr r1 f = getAttr r0 f := by
  intro editable
  induction editable with
  | nil =>
    intro r0 r1 f hok habs
    simp only [applyEditForm, Except.ok.injEq] at hok
    subst hok
    rfl
  | cons attr rest ih =>
    intro r0 r1 f hok habs
    have habs' : formHas form f = false ∨ f ∉ rest.map (fun x => x.name) := by
      rcases habs with h | h
      · exact Or.inl h
      · simp only [List.map_cons, List.mem_cons, not_or] at h
        exact Or.inr h.2
    simp only [applyEditForm] at hok
    cases hfb : formHas form attr.name with
    | false =>
      simp only [hfb, Bool.false_eq_true, if_false] at hok
      exact ih _ _ _ hok habs'
    | true =>
      simp only [hfb, if_true] at hok
      cases hg : formGet form attr.name with
      | none =>
        simp only [hg] at hok
        exact ih _ _ _ hok habs'
      | some s =>
        simp only [hg] at hok
        by_cases hsec : attr.name = secret ∧ s = ""
        · rw [if_pos hsec] at hok
          exact ih _ _ _ hok habs'
        · rw [if_neg hsec] at hok
          cases hv : validate_resource_attribute attr
              (.text (if attr.name = secret then hash s else s)) with
          | error e => rw [hv] at hok; simp at hok
          | ok v =>
            rw [hv] at hok
            have hne : f ≠ attr.name := by
              rcases habs with h | h
              · intro heq
                rw [heq] at h
                rw [h] at hfb
                exact Bool.noConfusion hfb
              · simp only [List.map_cons, List.mem_cons, not_or] at h
                exact h.1
            rw [ih _ _ _ hok habs']
            exact getAttr_setAttr_ne r0 attr.name f v hne

/-- The clone fold leaves a key alone when no processed attribute carries
it (and it is not the revision primary key). -/
theorem clone_foldl_getAttr_not_mem (rpk k : String) (hkrpk : k ≠ rpk) :
    ∀ (l : List (String × Value)) (acc : Entity),
      (∀ p ∈ l, p.1 ≠ k) →
      getAttr (l.foldl (fun acc p =>
        if p.1 ∈ ["_sa_instance_state", "created_at", "updated_at"] then acc
        else if p.1 = "id" then setAttr acc rpk p.2
        else setAttr acc p.1 p.2) acc) k = getAttr acc k := by
  intro l
  induction l with
  | nil => intro acc _; rfl
  | cons p rest ih =>
    intro acc hl
    rw [List.foldl_cons]
    have hpk : p.1 ≠ k := hl p (List.mem_cons_self p rest)
    have hrest : ∀ q ∈ rest, q.1 ≠ k := fun q hq => hl q (List.mem_cons_of_mem p hq)
    rw [ih _ hrest]
    by_cases h1 : p.1 ∈ ["_sa_instance_state", "created_at", "updated_at"]
    · rw [if_pos h1]
    · rw [if_neg h1]
      by_cases h2 : p.1 = "id"
      · rw [if_pos h2]
        exact getAttr_setAttr_ne acc rpk k p.2 hkrpk
      · rw [if_neg h2]
        exact getAttr_setAttr_ne acc p.1 k p.2 (fun hh => hpk hh.symm)

/-- The clone fold reproduces the snapshot value of every key outside the
skip set that is not the revision primary key. -/
theorem clone_foldl_getAttr (rpk k : String) (hkrpk : k ≠ rpk)
    (hks : k ∉ revisionSkipColumns) :
    ∀ (old : List (String × Value)) (acc : Entity),
      (old.map Prod.fst).Nodup →
      getAttr (old.foldl (fun acc p =>
        if p.1 ∈ ["_sa_instance_state", "created_at", "updated_at"] then acc
        else if p.1 = "id" then setAttr acc rpk p.2
        else setAttr acc p.1 p.2) acc) k =
      (if k ∈ old.map Prod.fst then getAttr old k else getAttr acc k) := by
  have hkid : k ≠ "id" := fun h => hks (by rw [h]; simp [revisionSkipColumns])
  have hk3 : k ∉ ["_sa_instance_state", "created_at", "updated_at"] := by
    intro hmm
    exact hks (by simp only [revisionSkipColumns]; simp at hmm ⊢; tauto)
  intro old
  induction old with
  | nil => intro acc _; simp
  | cons p rest ih =>
    intro acc hnd
    rw [List.foldl_cons]
    simp only [List.map_cons, List.nodup_cons] at hnd
    by_cases hp : p.1 = k
    · have hnp : ∀ q ∈ rest, q.1 ≠ k := by
        intro q hq hqk
        exact hnd.1 (by rw [hp, ← hqk]; exact List.mem_map_of_mem Prod.fst hq)
      rw [clone_foldl_getAttr_not_mem rpk k hkrpk rest _ hnp]
      have hskip : p.1 ∉ ["_sa_instance_state", "created_at", "updated_at"] :=
        hp ▸ hk3
      rw [if_neg hskip, if_neg (hp ▸ hkid)]
      rw [hp, getAttr_setAttr_self]
      have hmem : k ∈ (p :: rest).map Prod.fst := by
        simp [List.mem_cons, hp]
      rw [if_pos hmem]
      simp [getAttr, List.find?, hp]
    · rw [ih _ hnd.2]
      have hstep : getAttr
          (if p.1 ∈ ["_sa_instance_state", "created_at", "updated_at"] then acc
           else if p.1 = "id" then setAttr acc rpk p.2
           else setAttr acc p.1 p.2) k = getAttr acc k := by
        by_cases h1 : p.1 ∈ ["_sa_instance_state", "created_at", "updated_at"]
        · rw [if_pos h1]
        · rw [if_neg h1]
          by_cases h2 : p.1 = "id"
          · rw [if_pos h2]
            exact getAttr_setAttr_ne acc rpk k p.2 hkrpk
          · rw [if_neg h2]
            exact getAttr_setAttr_ne acc p.1 k p.2 (fun hh => hp hh.symm)
      rw [hstep]
      by_cases hmem : k ∈ rest.map Prod.fst
      · rw [if_pos hmem,
            if_pos (show k ∈ (p :: rest).map Prod.fst by
              simp only [List.map_cons, List.mem_cons]; exact Or.inr hmem)]
        simp [getAttr, List.find?, hp]
      · rw [if_neg hmem,
            if_neg (show k ∉ (p :: rest).map Prod.fst by
              simp only [List.map_cons, List.mem_cons, not_or]
              exact ⟨fun hh => hp hh.symm, hmem⟩)]

/-- The clone of a snapshot with distinct keys carries the snapshot value
of every non-system key other than the revision primary key. -/
theorem getAttr_revisionClonedAttributes (rpk k : String)
    (old_resource : Entity) (hnd : (old_resource.map Prod.fst).Nodup)
    (hks : k ∉ revisionSkipColumns) (hkrpk : k ≠ rpk) :
    getAttr (revisionClonedAttributes rpk old_resource) k =
      getAttr old_resource k := by
  unfold revisionClonedAttributes
  rw [clone_foldl_getAttr rpk k hkrpk hks old_resource [] hnd]
  by_cases hmem : k ∈ old_resource.map Prod.fst
  · rw [if_pos hmem]
  · rw [if_neg hmem]
    have hfind : old_resource.find? (fun p => p.1 = k) = none := by
      rw [List.find?_eq_none]
      intro p hp
      simp only [decide_eq_true_eq]
      intro hpk'
      exact hmem (hpk' ▸ List.mem_map_of_mem Prod.fst hp)
    simp [getAttr, hfind]

/-- The widget storage model used by the concrete witnesses. -/
def widgetModel : Model :=
  ⟨"WidgetModel",
   [⟨"id", "INTEGER"⟩, ⟨"name", "VARCHAR(80)"⟩, ⟨"qty", "INTEGER"⟩,
    ⟨"created_at", "DATETIME"⟩, ⟨"updated_at", "DATETIME"⟩],
   ["id"]⟩

/-- The widget revision model used by the concrete witnesses. -/
def widgetRevisionModel : Model :=
  ⟨"WidgetRevisionModel",
   [⟨"revision_id", "INTEGER"⟩, ⟨"widget_id", "INTEGER"⟩,
    ⟨"name", "VARCHAR(80)"⟩, ⟨"qty", "INTEGER"⟩, ⟨"edited_by", "INTEGER"⟩],
   ["revision_id"]⟩

/-- A widget resource descriptor with revisioning enabled. -/
def widgetClass : ResourceClass :=
  ⟨"widget", widgetModel, none, ["name", "qty"], none, none,
   some true, some widgetRevisionModel, "widget_id", false, false, true⟩

/-- A stored widget row. -/
def widget1 : Entity :=
  [("id", .intv 1), ("name", .text "Foo"), ("qty", .intv 10),
   ("created_at", .text "2024-01-01"), ("updated_at", .text "2024-01-01")]

/-! ## Theorems -/

/-- C1: for every registered resource type, the editable-attribute list is
a sublist of the model columns (schema declaration order), and a column
belongs to it exactly when it is a persisted column that is not a
primary-key column, not `created_at`, not `updated_at`, and not listed in
the protected-attribute list of the descriptor; in particular every
primary-key field and both timestamp fields are excluded. -/
theorem editable_attributes_exactly_nonsystem (rc : ResourceClass) :
    (get_editable_attributes rc).Sublist rc.model.columns ∧
    (∀ c : Column, c ∈ get_editable_attributes rc ↔
      (c ∈ rc.model.columns ∧ c.name ∉ rc.model.pkNames ∧
       c.name ≠ "created_at" ∧ c.name ≠ "updated_at" ∧
       c.name ∉ rc.protected_attributes.getD [])) := by
  constructor
  · exact List.filter_sublist _
  · intro c
    unfold get_editable_attributes editableIgnoreColumns
    cases h : rc.protected_attributes <;>
      simp [List.mem_filter, h, List.elem_iff] <;>
      tauto

/-- C4 counterexample: coercing the non-empty string `yes` on a
boolean-typed field yields `None`, not `false` as the claim states. -/
theorem validate_boolean_yes_yields_null :
    validate_resource_attribute ⟨"is_active", "BOOLEAN"⟩ (.text "yes") =
      .ok Value.null ∧ Value.null ≠ Value.boolv false := by
  exact ⟨rfl, by decide⟩

/-- C4 amended: on a boolean-typed field, coercing a raw string yields
`true` exactly when it case-insensitively equals `true`, `false` exactly
when it case-insensitively equals `false`, and `None` (not an error) for
every other string. -/
theorem validate_boolean_tristate (c : Column) (s : String)
    (hb : c.type = "BOOLEAN") :
    validate_resource_attribute c (.text s) =
      .ok (if strLower s = "true" then .boolv true
           else if strLower s = "false" then .boolv false
           else .null) := by
  unfold validate_resource_attribute
  rw [hb]
  rw [if_neg (by decide), if_neg (by decide), if_neg (by decide), if_pos rfl]

/-- C4 amended witness: the string `yes` coerces to `None` on a boolean
field. -/
theorem validate_boolean_tristate_witness :
    validate_resource_attribute ⟨"is_active", "BOOLEAN"⟩ (.text "yes") =
      .ok (if strLower "yes" = "true" then .boolv true
           else if strLower "yes" = "false" then .boolv false
           else .null) :=
  validate_boolean_tristate ⟨"is_active", "BOOLEAN"⟩ "yes" rfl

/-- C10: the extra `UserModel` filter `or_(roles.in_(fixed set),
roles.isnot(None))` is logically equivalent to `roles IS NOT NULL`: a row
passes the `WHERE` clause exactly when its roles value is non-null, so a
non-null roles value outside the fixed set is included and a null roles
value is excluded. -/
theorem user_role_condition_equiv_not_null (v : Value) :
    sqlToWhere (userRoleCondition v) = sqlToWhere (sqlIsNotNull v) ∧
    (sqlToWhere (userRoleCondition v) = true ↔ v ≠ Value.null) := by
  have conj : ∀ w : Value, w ≠ Value.null →
      sqlToWhere (userRoleCondition w) = sqlToWhere (sqlIsNotNull w) ∧
      (sqlToWhere (userRoleCondition w) = true ↔ w ≠ Value.null) := by
    intro w hw
    have hnn : sqlIsNotNull w = some true := by simp [sqlIsNotNull, hw]
    have hc : userRoleCondition w = some true := by
      unfold userRoleCondition
      rw [hnn, sqlOr_true_right]
    rw [hc, hnn]
    exact ⟨rfl, ⟨fun _ => hw, fun _ => rfl⟩⟩
  cases v with
  | null => exact ⟨rfl, by decide⟩
  | text s => exact conj _ (by simp)
  | intv n => exact conj _ (by simp)
  | boolv b => exact conj _ (by simp)

/-- C9: the sample-template download writes exactly the editable attribute
names as header followed by one blank row, that header is exactly the
column list the CSV upload restricts its parse to, and it lists the
editable names in schema declaration order. -/
theorem sample_header_matches_upload_columns (rc : ResourceClass) :
    resource_download_sample_rows rc = [resource_upload_usecols rc, []] ∧
    resource_upload_usecols rc =
      (get_editable_attributes rc).map (fun a => a.name) ∧
    (resource_upload_usecols rc).Sublist
      (rc.model.columns.map (fun c => c.name)) := by
  refine ⟨rfl, rfl, ?_⟩
  exact (List.filter_sublist _).map _

/-- C5: deleting an id that resolves to no stored row is a successful
no-op: the store is unchanged, no delete happens, no hook runs, and the
request still redirects; moreover the after-delete hook ever runs only
when the row existed and the descriptor declares the hook. -/
theorem delete_absent_is_noop (rc : ResourceClass) (store : List Entity)
    (rid : Value) :
    (queryGet rc.model store rid = none →
      resource_delete rc store rid = ⟨store, false, true⟩) ∧
    ((resource_delete rc store rid).hook_called = true →
      (queryGet rc.model store rid).isSome = true ∧
        rc.has_after_delete = true) := by
  constructor
  · intro h
    unfold resource_delete
    rw [h]
  · intro h
    unfold resource_delete at h
    cases hq : queryGet rc.model store rid with
    | none => rw [hq] at h; simp at h
    | some e => rw [hq] at h; exact ⟨rfl, h⟩

/-- C5 witness: deleting id 2 from a store holding only widget 1 leaves
the store unchanged, calls no hook, and redirects. -/
theorem delete_absent_is_noop_witness :
    (queryGet widgetClass.model [widget1] (.intv 2) = none →
      resource_delete widgetClass [widget1] (.intv 2) =
        ⟨[widget1], false, true⟩) ∧
    ((resource_delete widgetClass [widget1] (.intv 2)).hook_called = true →
      (queryGet widgetClass.model [widget1] (.intv 2)).isSome = true ∧
        widgetClass.has_after_delete = true) :=
  delete_absent_is_noop widgetClass [widget1] (.intv 2)

/-- C6 counterexample: invoking delete with the unregistered resource type
`ghost` does not produce the recovered redirect-to-list outcome the claim
states; it escapes with the `AttributeError` raised by dereferencing the
`None` descriptor. -/
theorem unknown_type_not_redirected :
    resource_delete_route [widgetClass] "ghost" (.intv 1) [widget1] =
      .error attributeErrorNone ∧
    resource_delete_route [widgetClass] "ghost" (.intv 1) [widget1] ≠
      .ok ⟨[widget1], false, true⟩ := by
  refine ⟨rfl, fun h => ?_⟩
  rw [show resource_delete_route [widgetClass] "ghost" (.intv 1) [widget1] =
        .error attributeErrorNone from rfl] at h
  exact Except.noConfusion h

/-- C6 amended: a CRUD operation invoked with an unregistered resource-type
identifier fails before any storage access with the `AttributeError`
raised by dereferencing the `None` returned by `get_resource_class`
(an unhandled exception, not `NotFound`), performing no data change and no
redirect; this holds for list, read, create, edit and delete alike. -/
theorem unknown_type_attribute_error (registry : List ResourceClass)
    (ctx : QueryCtx) (resource_type : String) (search_params : SearchParams)
    (page : Nat) (secret : String) (hash : String → String)
    (current_user : Option Int) (rid : Value) (form : Form)
    (store : List Entity)
    (h : get_resource_class registry resource_type = none) :
    resource_list_route registry ctx resource_type search_params page store =
      .error attributeErrorNone ∧
    resource_read_route registry resource_type rid store =
      .error attributeErrorNone ∧
    resource_create_route registry secret hash resource_type form store =
      .error attributeErrorNone ∧
    resource_edit_route registry secret hash current_user resource_type rid
      form store = .error attributeErrorNone ∧
    resource_delete_route registry resource_type rid store =
      .error attributeErrorNone := by
  unfold resource_list_route resource_read_route resource_create_route
    resource_edit_route resource_delete_route
  rw [h]
  exact ⟨rfl, rfl, rfl, rfl, rfl⟩

/-- C6 amended witness: the unregistered type `ghost` makes all five
routes fail with the attribute error. -/
theorem unknown_type_attribute_error_witness :
    resource_list_route [widgetClass] ⟨fun _ _ => none⟩ "ghost"
      ⟨"", none, none⟩ 1 [widget1] = .error attributeErrorNone ∧
    resource_read_route [widgetClass] "ghost" (.intv 1) [widget1] =
      .error attributeErrorNone ∧
    resource_create_route [widgetClass] "password" (fun s => s) "ghost" []
      [widget1] = .error attributeErrorNone ∧
    resource_edit_route [widgetClass] "password" (fun s => s) none "ghost"
      (.intv 1) [] [widget1] = .error attributeErrorNone ∧
    resource_delete_route [widgetClass] "ghost" (.intv 1) [widget1] =
      .error attributeErrorNone :=
  unknown_type_attribute_error [widgetClass] ⟨fun _ _ => none⟩ "ghost"
    ⟨"", none, none⟩ 1 "password" (fun s => s) none (.intv 1) [] [widget1]
    (by decide)

/-- C7: a query whose search term is the empty string returns exactly the
same pagination (same items, same order, same total count) as the same
query with no search filter at all, for every resource type, date range,
sort spec and page. -/
theorem empty_search_equals_no_search (ctx : QueryCtx) (rc : ResourceClass)
    (model : Model) (list_display : List String)
    (from_date to_date : Option String) (page : Nat) (per_page : Option Nat)
    (sort : Option (List SortCriterion)) (rows : List Entity) :
    filter_resources ctx rc model list_display ⟨"", from_date, to_date⟩
        page per_page sort rows =
      filter_resources_no_search ctx rc model list_display from_date to_date
        page per_page sort rows := by
  have hconds : searchQueryConditions ctx model list_display "" = [] := by
    simp [searchQueryConditions]
  have hpred : ∀ (dc : List (Entity → SQLBool)) (row : Entity),
      sqlToWhere (sqlAnd (orGroup [] row) (andGroup dc row)) =
        sqlToWhere (andGroup dc row) := by
    intro dc row
    rw [show orGroup [] row = some true from rfl, sqlAnd_true_left]
  unfold filter_resources filter_resources_no_search
  simp only [hconds, hpred]

/-- C8 (code bug evaluation): the `name,qty` scenario commits one entity
per row with a blank integer cell coerced to null, but a blank cell in a
BOOLEAN-typed column makes the per-cell coercion raise `AttributeError`
(from `None.lower()`) instead of coercing to null, so the upload aborts;
rows committed before the raising row stay committed. -/
theorem upload_blank_boolean_cell_raises :
    resource_upload_rows [⟨"name", "VARCHAR(80)"⟩, ⟨"qty", "INTEGER"⟩]
        [[("name", .text "Bar"), ("qty", .intv 5)],
         [("name", .text "Baz"), ("qty", .null)]] [] =
      ([[("name", .text "Bar"), ("qty", .intv 5)],
        [("name", .text "Baz"), ("qty", .null)]], none) ∧
    uploadCoerceCell ⟨"flag", "BOOLEAN"⟩ .null =
      .error "AttributeError: object has no attribute lower" ∧
    resource_upload_rows [⟨"name", "VARCHAR(80)"⟩, ⟨"flag", "BOOLEAN"⟩]
        [[("name", .text "Bar"), ("flag", .text "true")],
         [("name", .text "Baz"), ("flag", .null)]] [] =
      ([[("name", .text "Bar"), ("flag", .boolv true)]],
       some "AttributeError: object has no attribute lower") := by
  exact ⟨rfl, rfl, rfl⟩

/-- C3: for every update of an existing entity, only editable fields
present in the submitted input set are assigned: any field absent from the
form, or not editable at all, keeps its prior stored value (partial
update), while the create loop assigns a value to every editable field. -/
theorem edit_is_partial_update (secret : String) (hash : String → String)
    (form : Form) (editable : List Column) (r0 r1 ent : Entity)
    (f : String) (c : Column)
    (hedit : applyEditForm secret hash form editable r0 = .ok r1)
    (hcreate : createAttributesToSave secret hash editable form = .ok ent)
    (habsent : formHas form f = false ∨ f ∉ editable.map (fun x => x.name))
    (hc : c ∈ editable) :
    getAttr r1 f = getAttr r0 f ∧ c.name ∈ ent.map Prod.fst :=
  ⟨applyEditForm_frame secret hash form editable r0 r1 f hedit habsent,
   (createLoop_keys secret hash form editable [] ent hcreate).2 c hc⟩

/-- C3 witness: submitting only `qty=20` for a widget leaves `name`
untouched in the edited row, while create would assign `qty` (and every
other editable field). -/
theorem edit_is_partial_update_witness :
    getAttr (setAttr widget1 "qty" (Value.text "20")) "name" =
      getAttr widget1 "name" ∧
    "qty" ∈ ([("name", Value.null), ("qty", Value.text "20")] : Entity).map
      Prod.fst :=
  edit_is_partial_update "password" (fun s => s) [("qty", "20")]
    (get_editable_attributes widgetClass) widget1
    (setAttr widget1 "qty" (Value.text "20"))
    [("name", Value.null), ("qty", Value.text "20")] "name"
    ⟨"qty", "INTEGER"⟩ rfl rfl (Or.inl rfl) (by decide)

/-- C2: on a descriptor with revisioning enabled, an update writes a
revision record if and only if at least one field of the snapshot other
than the system fields (primary key, `created_at`, `updated_at`) differs
between the pre-update snapshot and the post-update state; the record
carries the pre-update field values and, when a user is logged in and the
revision model has an `edited_by` column, a reference to the acting user.
An update that changes no such field writes no record. -/
theorem revision_written_iff_changed (rc : ResourceClass) (rm : Model)
    (current_user : Option Int) (old_resource new_resource : Entity)
    (hrev : rc.revisions = some true) (hrm : rc.revision_model = some rm)
    (hpk : rc.model.pkNames = ["id"])
    (hsa : "_sa_instance_state" ∉ old_resource.map Prod.fst)
    (hnd : (old_resource.map Prod.fst).Nodup) :
    (handle_resource_revision rc current_user old_resource new_resource ≠ [] ↔
       ∃ p ∈ old_resource, p.1 ∉ rc.model.pkNames ∧ p.1 ≠ "created_at" ∧
         p.1 ≠ "updated_at" ∧
         getAttr old_resource p.1 ≠ getAttr new_resource p.1) ∧
    (∀ r ∈ handle_resource_revision rc current_user old_resource new_resource,
       (∀ k, k ∉ revisionSkipColumns → k ≠ rc.revision_pk →
          k ≠ "edited_by" → getAttr r k = getAttr old_resource k) ∧
       (∀ uid, current_user = some uid →
          rm.columns.any (fun col => col.name = "edited_by") = true →
          getAttr r "edited_by" = Value.intv uid)) := by
  have hmods : revisionIsModified old_resource new_resource = true ↔
      ∃ p ∈ old_resource, p.1 ∉ rc.model.pkNames ∧ p.1 ≠ "created_at" ∧
        p.1 ≠ "updated_at" ∧
        getAttr old_resource p.1 ≠ getAttr new_resource p.1 := by
    unfold revisionIsModified
    rw [List.any_eq_true]
    constructor
    · rintro ⟨p, hp, hf⟩
      rw [Bool.and_eq_true, Bool.not_eq_true', Bool.not_eq_true',
        decide_eq_false_iff_not, decide_eq_false_iff_not] at hf
      refine ⟨p, hp, ?_, ?_, ?_, hf.2⟩
      · rw [hpk]
        intro hmm
        simp only [List.mem_singleton] at hmm
        exact hf.1 (by simp [revisionSkipColumns, hmm])
      · intro h
        exact hf.1 (by simp [revisionSkipColumns, h])
      · intro h
        exact hf.1 (by simp [revisionSkipColumns, h])
    · rintro ⟨p, hp, h1, h2, h3, h4⟩
      refine ⟨p, hp, ?_⟩
      have hpsa : p.1 ≠ "_sa_instance_state" :=
        fun h => hsa (h ▸ List.mem_map_of_mem Prod.fst hp)
      have hid : p.1 ≠ "id" := by
        rw [hpk] at h1
        simpa using h1
      rw [Bool.and_eq_true, Bool.not_eq_true', Bool.not_eq_true',
        decide_eq_false_iff_not, decide_eq_false_iff_not]
      exact ⟨by simp [revisionSkipColumns, hid, hpsa, h2, h3], h4⟩
  have hhandle : handle_resource_revision rc current_user old_resource
      new_resource =
      if revisionIsModified old_resource new_resource then
        [revisionRecord rm rc.revision_pk current_user old_resource]
      else [] := by
    unfold handle_resource_revision
    rw [hrev, hrm]
    rfl
  have hrecord_frame : ∀ k, k ∉ revisionSkipColumns → k ≠ rc.revision_pk →
      k ≠ "edited_by" →
      getAttr (revisionRecord rm rc.revision_pk current_user old_resource) k =
        getAttr old_resource k := by
    intro k hk1 hk2 hk3
    have hclone : getAttr (revisionClonedAttributes rc.revision_pk
        old_resource) k = getAttr old_resource k :=
      getAttr_revisionClonedAttributes rc.revision_pk k old_resource hnd hk1 hk2
    unfold revisionRecord
    cases current_user with
    | none => exact hclone
    | some uid =>
      by_cases hcol : rm.columns.any (fun c => c.name = "edited_by") = true
      · dsimp only
        rw [if_pos hcol, getAttr_setAttr_ne _ _ _ _ hk3]
        exact hclone
      · dsimp only
        rw [if_neg hcol]
        exact hclone
  have hrecord_actor : ∀ uid, current_user = some uid →
      rm.columns.any (fun col => col.name = "edited_by") = true →
      getAttr (revisionRecord rm rc.revision_pk current_user old_resource)
        "edited_by" = Value.intv uid := by
    intro uid hcu hcol
    unfold revisionRecord
    rw [hcu]
    dsimp only
    rw [if_pos hcol]
    exact getAttr_setAttr_self _ _ _
  constructor
  · rw [hhandle]
    by_cases hm : revisionIsModified old_resource new_resource = true
    · rw [if_pos hm]
      exact ⟨fun _ => hmods.mp hm, fun _ => by simp⟩
    · rw [if_neg hm]
      constructor
      · intro hne
        exact absurd rfl hne
      · intro hex
        exact absurd (hmods.mpr hex) hm
  · rw [hhandle]
    intro r hr
    by_cases hm : revisionIsModified old_resource new_resource = true
    · rw [if_pos hm] at hr
      rw [List.mem_singleton] at hr
      subst hr
      exact ⟨hrecord_frame, hrecord_actor⟩
    · rw [if_neg hm] at hr
      exact absurd hr (List.not_mem_nil r)

/-- C2 witness: editing widget 1 (qty 10 to 20) under user 7, with
revisioning enabled on the widget descriptor, writes exactly one revision
record; the iff and the pre-update-value properties hold at this input. -/
theorem revision_written_iff_changed_witness :
    (handle_resource_revision widgetClass (some 7) widget1
        (setAttr widget1 "qty" (Value.text "20")) ≠ [] ↔
       ∃ p ∈ widget1, p.1 ∉ widgetClass.model.pkNames ∧ p.1 ≠ "created_at" ∧
         p.1 ≠ "updated_at" ∧
         getAttr widget1 p.1 ≠
           getAttr (setAttr widget1 "qty" (Value.text "20")) p.1) ∧
    (∀ r ∈ handle_resource_revision widgetClass (some 7) widget1
        (setAttr widget1 "qty" (Value.text "20")),
       (∀ k, k ∉ revisionSkipColumns → k ≠ widgetClass.revision_pk →
          k ≠ "edited_by" → getAttr r k = getAttr widget1 k) ∧
       (∀ uid, (some 7 : Option Int) = some uid →
          widgetRevisionModel.columns.any
            (fun col => col.name = "edited_by") = true →
          getAttr r "edited_by" = Value.intv uid)) :=
  revision_written_iff_changed widgetClass widgetRevisionModel (some 7)
    widget1 (setAttr widget1 "qty" (Value.text "20")) rfl rfl rfl
    (by decide) (by decide)

end FlaskAdmin
